import Mathlib

/-!
Verification of the `elf-loader` repository (`src/file.rs`) against its
natural-language specification.

The source is shallowly embedded: byte buffers are `List Nat` (each element a
byte value), machine integers are `Nat` with explicit `2 ^ 64` bounds where
64-bit overflow matters, and every fallible operation returns a `Res` value
that separates the three ways the Rust code can end:
  * `Res.ok v`   — normal return;
  * `Res.panic`  — a Rust panic: out-of-range slice index, failed `unwrap`,
    division by zero, or debug-mode arithmetic overflow/underflow;
  * `Res.oob`    — undefined behaviour: a raw-pointer read or write outside a
    provided buffer (the code builds such pointers with
    `slice::from_raw_parts`, `ptr.add` and unchecked `*ptr` writes).

`repr(packed)` struct reinterpretation on the little-endian 64-bit target is
embedded as explicit little-endian field extraction at the packed offsets.
One simplification: when `from_raw_parts` reads past the *sub-slice* it was
built from but still inside the source buffer, the embedding returns the
buffer's bytes (what the target machine does); only reads past the end of the
whole buffer become `Res.oob`.
-/

set_option maxRecDepth 100000

/-- Outcome of running a piece of the Rust code. -/
inductive Res (α : Type) where
  | ok : α → Res α
  | panic : Res α
  | oob : Res α
deriving DecidableEq, Repr

/-- Sequencing: a panic or an out-of-bounds access stops the run. -/
def Res.bind {α β : Type} : Res α → (α → Res β) → Res β
  | .ok a, f => f a
  | .panic, _ => .panic
  | .oob, _ => .oob

/-- Read `n` bytes little-endian starting at `off`; `none` when any index is
past the end of the buffer (in the Rust source this is a panicking slice
index such as `data[24..32]`, or an out-of-slice raw read, depending on the
call site). -/
def readLE (data : List Nat) : Nat → Nat → Option Nat
  | _, 0 => some 0
  | off, n + 1 =>
    match data[off]?, readLE data (off + 1) n with
    | some b, some v => some (b + 256 * v)
    | _, _ => none

/-- Specification-side little-endian value of a byte list (first byte least
significant); used to state what the decoders return. -/
def leDecode : List Nat → Nat
  | [] => 0
  | b :: t => b + 256 * leDecode t

/-- Store the `n` low little-endian bytes of `v` at `off` (caller has checked
the range). Models a `*mut u64` store on the little-endian target. -/
def setBytesLE (base : List Nat) : Nat → Nat → Nat → List Nat
  | _, _, 0 => base
  | off, v, n + 1 => setBytesLE (base.set off (v % 256)) (off + 1) (v / 256) n

/-- One past the largest `usize`/`u64` value on the 64-bit target. -/
def usizeBound : Nat := 2 ^ 64

/-- `ProgramHeader` of `file.rs` (`repr(packed)`, 56 bytes):
type(4) flags(4) offset(8) v_addr(8) p_addr(8) file_size(8) memory_size(8)
align(8). -/
structure ProgramHeader where
  header_type : Nat
  flags : Nat
  offset : Nat
  v_addr : Nat
  p_addr : Nat
  file_size : Nat
  memory_size : Nat
  align : Nat
deriving DecidableEq, Repr

/-- `SectionHeader` of `file.rs` (`repr(packed)`, 64 bytes):
name_offset(4) type(4) flags(8) addr(8) offset(8) size(8) link(4) info(4)
addr_align(8) entry_size(8). -/
structure SectionHeader where
  name_offset : Nat
  header_type : Nat
  flags : Nat
  addr : Nat
  offset : Nat
  size : Nat
  link : Nat
  info : Nat
  addr_align : Nat
  entry_size : Nat
deriving DecidableEq, Repr

/-- `RelocationSection` of `file.rs` (`repr(packed)`, 24 bytes):
offset(8) info(8) addend(8). -/
structure RelocationSection where
  offset : Nat
  info : Nat
  addend : Nat
deriving DecidableEq, Repr

/-- `ElfFile::is_valid`: buffer length at least 4 and the first four bytes
equal to the ELF magic, checked by zipping the magic with `data[0..4]`. -/
def elfMagic : List Nat := [0x7F, 0x45, 0x4C, 0x46]

def is_valid (data : List Nat) : Bool :=
  if data.length < 4 then
    false
  else
    (elfMagic.zip (data.take 4)).all fun p => p.1 == p.2

/-- `ElfFile::entrypoint`: `usize::from_le_bytes(data[24..32])`; the slice
index panics when the buffer is shorter than 32 bytes. -/
def entrypoint (data : List Nat) : Res Nat :=
  match readLE data 24 8 with
  | some v => .ok v
  | none => .panic

/-- `ElfFile::program_header_table`: `(u64 @ 32, u16 @ 54, u16 @ 56)`, each
slice index panicking when out of range. -/
def program_header_table (data : List Nat) : Res (Nat × Nat × Nat) :=
  match readLE data 32 8, readLE data 54 2, readLE data 56 2 with
  | some p, some s, some n => .ok (p, s, n)
  | _, _, _ => .panic

/-- `ElfFile::section_header_table`: `(u64 @ 40, u16 @ 58, u16 @ 60)`. -/
def section_header_table (data : List Nat) : Res (Nat × Nat × Nat) :=
  match readLE data 40 8, readLE data 58 2, readLE data 60 2 with
  | some p, some s, some n => .ok (p, s, n)
  | _, _, _ => .panic

/-- Decode one packed `ProgramHeader` at byte offset `b` (little-endian field
extraction at the packed sub-offsets). -/
def decodePH (data : List Nat) (b : Nat) : Option ProgramHeader :=
  (readLE data b 4).bind fun t =>
  (readLE data (b + 4) 4).bind fun fl =>
  (readLE data (b + 8) 8).bind fun o =>
  (readLE data (b + 16) 8).bind fun v =>
  (readLE data (b + 24) 8).bind fun p =>
  (readLE data (b + 32) 8).bind fun fs =>
  (readLE data (b + 40) 8).bind fun ms =>
  (readLE data (b + 48) 8).map fun al =>
  ⟨t, fl, o, v, p, fs, ms, al⟩

/-- Decode `n` consecutive packed program headers at stride 56 (the layout
`slice::from_raw_parts(_ as *const ProgramHeader, num)` reads). -/
def decodePHs (data : List Nat) : Nat → Nat → Option (List ProgramHeader)
  | _, 0 => some []
  | b, n + 1 =>
    (decodePH data b).bind fun h =>
    (decodePHs data (b + 56) n).map fun t => h :: t

/-- `ElfFile::program_headers`: takes the slice `data[ptr .. ptr+num*size]`
(panicking when it runs past the buffer), then reinterprets `num` packed
56-byte records starting at `ptr`; a record read past the end of the buffer
is an out-of-bounds raw read. -/
def program_headers (data : List Nat) : Res (List ProgramHeader) :=
  Res.bind (program_header_table data) fun psn =>
  match psn with
  | (ptr, size, num) =>
    if ptr + num * size ≤ data.length then
      match decodePHs data ptr num with
      | some hs => .ok hs
      | none => .oob
    else .panic

/-- Decode one packed `SectionHeader` at byte offset `b`. -/
def decodeSH (data : List Nat) (b : Nat) : Option SectionHeader :=
  (readLE data b 4).bind fun nm =>
  (readLE data (b + 4) 4).bind fun t =>
  (readLE data (b + 8) 8).bind fun fl =>
  (readLE data (b + 16) 8).bind fun ad =>
  (readLE data (b + 24) 8).bind fun o =>
  (readLE data (b + 32) 8).bind fun sz =>
  (readLE data (b + 40) 4).bind fun lk =>
  (readLE data (b + 44) 4).bind fun inf =>
  (readLE data (b + 48) 8).bind fun aa =>
  (readLE data (b + 56) 8).map fun es =>
  ⟨nm, t, fl, ad, o, sz, lk, inf, aa, es⟩

/-- Decode `n` consecutive packed section headers at stride 64. -/
def decodeSHs (data : List Nat) : Nat → Nat → Option (List SectionHeader)
  | _, 0 => some []
  | b, n + 1 =>
    (decodeSH data b).bind fun h =>
    (decodeSHs data (b + 64) n).map fun t => h :: t

/-- `ElfFile::section_headers`: same shape as `program_headers` with the
64-byte section-header layout. -/
def section_headers (data : List Nat) : Res (List SectionHeader) :=
  Res.bind (section_header_table data) fun psn =>
  match psn with
  | (ptr, size, num) =>
    if ptr + num * size ≤ data.length then
      match decodeSHs data ptr num with
      | some hs => .ok hs
      | none => .oob
    else .panic

/-- The loop body of `ElfFile::load_segments_len`: folds `(start, end)` over
every program header, with no filtering on `header_type`; the u64 addition
`v_addr + memory_size` panics on overflow (debug build). -/
def spanFold : Nat → Nat → List ProgramHeader → Res (Nat × Nat)
  | start, stop, [] => .ok (start, stop)
  | start, stop, h :: t =>
    if h.v_addr + h.memory_size < usizeBound then
      spanFold
        (if h.v_addr < start then h.v_addr else start)
        (if h.v_addr + h.memory_size > stop then h.v_addr + h.memory_size else stop)
        t
    else .panic

/-- `ElfFile::load_segments_len`: starts from `start = usize::MAX`,
`end = usize::MIN`, folds over all program headers, and returns the usize
subtraction `end - start`, which panics (debug underflow) when
`start > end`. -/
def load_segments_len (data : List Nat) : Res Nat :=
  Res.bind (program_headers data) fun hs =>
  Res.bind (spanFold (usizeBound - 1) 0 hs) fun se =>
  match se with
  | (start, stop) => if start ≤ stop then .ok (stop - start) else .panic

/-- The copy loop of `ElfFile::load`: for `cnt` iterations, read
`file_data[srcOff]` (a panicking slice index) and store it through the raw
destination pointer (an unchecked write: out of the destination buffer is
undefined behaviour). -/
def copySeg (fileData : List Nat) : List Nat → Nat → Nat → Nat → Res (List Nat)
  | base, _, _, 0 => .ok base
  | base, srcOff, dstOff, n + 1 =>
    match fileData[srcOff]? with
    | none => .panic
    | some b =>
      if dstOff < base.length then
        copySeg fileData (base.set dstOff b) (srcOff + 1) (dstOff + 1) n
      else .oob

/-- One iteration of `ElfFile::load`'s header loop: non-LOAD headers are
skipped; `&mut base[start]` panics when `v_addr` is out of range; then
`memory_size` bytes are copied from file offset `offset`. -/
def loadSeg (fileData : List Nat) (base : List Nat) (h : ProgramHeader) :
    Res (List Nat) :=
  if h.header_type ≠ 1 then .ok base
  else if h.v_addr < base.length then
    copySeg fileData base h.offset h.v_addr h.memory_size
  else .panic

def loadAll (fileData : List Nat) : List Nat → List ProgramHeader → Res (List Nat)
  | base, [] => .ok base
  | base, h :: t => Res.bind (loadSeg fileData base h) fun b => loadAll fileData b t

/-- `ElfFile::load`: enumerate the program headers, then copy every PT_LOAD
segment into the destination. -/
def load (data : List Nat) (base : List Nat) : Res (List Nat) :=
  Res.bind (program_headers data) fun hs => loadAll data base hs

/-- Decode one packed `RelocationSection` record at byte offset `b`. -/
def decodeRel (data : List Nat) (b : Nat) : Option RelocationSection :=
  (readLE data b 8).bind fun o =>
  (readLE data (b + 8) 8).bind fun i =>
  (readLE data (b + 16) 8).map fun a =>
  ⟨o, i, a⟩

/-- Decode `n` consecutive packed 24-byte relocation records; the code builds
this slice with `from_raw_parts` and no bounds check at all, so a record past
the end of the source buffer is an out-of-bounds raw read. -/
def decodeRels (data : List Nat) : Nat → Nat → Option (List RelocationSection)
  | _, 0 => some []
  | b, n + 1 =>
    (decodeRel data b).bind fun r =>
    (decodeRels data (b + 24) n).map fun t => r :: t

/-- One relocation write of `ElfFile::relocate`:
`*(base_ptr + offset) = base_addr + addend`, an unchecked 8-byte store
(out of the destination buffer is undefined behaviour); the u64 addition
panics on overflow (debug build). -/
def applyRel (baseAddr : Nat) (base : List Nat) (r : RelocationSection) :
    Res (List Nat) :=
  if r.offset + 8 ≤ base.length then
    if baseAddr + r.addend < usizeBound then
      .ok (setBytesLE base r.offset (baseAddr + r.addend) 8)
    else .panic
  else .oob

def applyRels (baseAddr : Nat) : List Nat → List RelocationSection → Res (List Nat)
  | base, [] => .ok base
  | base, r :: t => Res.bind (applyRel baseAddr base r) fun b => applyRels baseAddr b t

/-- One iteration of `ElfFile::relocate`'s section loop: sections whose type
is not 4 (RELA) are skipped; `size / entry_size` panics when `entry_size` is
zero; the record count is `size / entry_size` while the records are read at
their actual 24-byte stride, whatever `entry_size` says. -/
def relocSec (data : List Nat) (baseAddr : Nat) (base : List Nat)
    (h : SectionHeader) : Res (List Nat) :=
  if h.header_type ≠ 4 then .ok base
  else if h.entry_size = 0 then .panic
  else
    match decodeRels data h.offset (h.size / h.entry_size) with
    | some rs => applyRels baseAddr base rs
    | none => .oob

def relocAll (data : List Nat) (baseAddr : Nat) :
    List Nat → List SectionHeader → Res (List Nat)
  | base, [] => .ok base
  | base, h :: t =>
    Res.bind (relocSec data baseAddr base h) fun b => relocAll data baseAddr b t

/-- `ElfFile::relocate`: the destination buffer is `base` and its machine
address is `baseAddr` (the code takes `base.as_ptr() as u64` as the value
added to each addend, so the address is an explicit parameter here). -/
def relocate (data : List Nat) (base : List Nat) (baseAddr : Nat) : Res (List Nat) :=
  Res.bind (section_headers data) fun hs => relocAll data baseAddr base hs

/-- `load` followed by `relocate` on the same destination buffer, the
sequence the spec's determinism property quantifies over. -/
def loadThenRelocate (data : List Nat) (base : List Nat) (baseAddr : Nat) :
    Res (List Nat) :=
  Res.bind (load data base) fun b => relocate data b baseAddr

/-! ### Concrete images used to settle the claims

Each image is a byte buffer laid out by hand: the ELF header region
(offsets 0..64) carries only the table fields the exercised accessor reads,
followed by the program- or section-header records. -/

/-- Image with one PT_LOAD program header
`{offset = 0, v_addr = 0, file_size = 4, memory_size = 8}`; the file bytes at
offsets 0..8 are `[1,2,3,4,9,9,9,9]`, so the four bytes after `file_size`
are visibly nonzero. `phoff = 64`, `phentsize = 56`, `phnum = 1`. -/
def exC1data : List Nat :=
  [1, 2, 3, 4, 9, 9, 9, 9] ++ List.replicate 24 0
  ++ [64, 0, 0, 0, 0, 0, 0, 0]
  ++ List.replicate 14 0
  ++ [56, 0]
  ++ [1, 0]
  ++ List.replicate 6 0
  ++ [1, 0, 0, 0]
  ++ [0, 0, 0, 0]
  ++ List.replicate 8 0
  ++ List.replicate 8 0
  ++ List.replicate 8 0
  ++ [4, 0, 0, 0, 0, 0, 0, 0]
  ++ [8, 0, 0, 0, 0, 0, 0, 0]
  ++ List.replicate 8 0

/-- Like `exC1data` but with `memory_size = 32`, so the copy overruns a
destination buffer of 8 bytes. -/
def exC3data : List Nat :=
  [1, 2, 3, 4, 9, 9, 9, 9] ++ List.replicate 24 0
  ++ [64, 0, 0, 0, 0, 0, 0, 0]
  ++ List.replicate 14 0
  ++ [56, 0]
  ++ [1, 0]
  ++ List.replicate 6 0
  ++ [1, 0, 0, 0]
  ++ [0, 0, 0, 0]
  ++ List.replicate 8 0
  ++ List.replicate 8 0
  ++ List.replicate 8 0
  ++ [4, 0, 0, 0, 0, 0, 0, 0]
  ++ [32, 0, 0, 0, 0, 0, 0, 0]
  ++ List.replicate 8 0

/-- Image with two program headers (`phnum = 2`): a PT_LOAD one
`{v_addr = 0, memory_size = 8}` and a non-LOAD one (type 2)
`{v_addr = 100, memory_size = 8}`. -/
def exC5data : List Nat :=
  List.replicate 32 0
  ++ [64, 0, 0, 0, 0, 0, 0, 0]
  ++ List.replicate 14 0
  ++ [56, 0]
  ++ [2, 0]
  ++ List.replicate 6 0
  ++ [1, 0, 0, 0]
  ++ [0, 0, 0, 0]
  ++ List.replicate 8 0
  ++ List.replicate 8 0
  ++ List.replicate 8 0
  ++ [0, 0, 0, 0, 0, 0, 0, 0]
  ++ [8, 0, 0, 0, 0, 0, 0, 0]
  ++ List.replicate 8 0
  ++ [2, 0, 0, 0]
  ++ [0, 0, 0, 0]
  ++ List.replicate 8 0
  ++ [100, 0, 0, 0, 0, 0, 0, 0]
  ++ List.replicate 8 0
  ++ [0, 0, 0, 0, 0, 0, 0, 0]
  ++ [8, 0, 0, 0, 0, 0, 0, 0]
  ++ List.replicate 8 0

/-- Image with one RELA section header (`shoff = 64`, `shentsize = 64`,
`shnum = 1`) whose single 24-byte record sits at file offset 0:
`{offset = 0x10, info = 0, addend = 0x20}`; `size = 24`, `entry_size = 24`. -/
def exC4data : List Nat :=
  [16, 0, 0, 0, 0, 0, 0, 0]
  ++ List.replicate 8 0
  ++ [32, 0, 0, 0, 0, 0, 0, 0]
  ++ List.replicate 16 0
  ++ [64, 0, 0, 0, 0, 0, 0, 0]
  ++ List.replicate 10 0
  ++ [64, 0]
  ++ [1, 0]
  ++ [0, 0]
  ++ [0, 0, 0, 0]
  ++ [4, 0, 0, 0]
  ++ List.replicate 8 0
  ++ List.replicate 8 0
  ++ List.replicate 8 0
  ++ [24, 0, 0, 0, 0, 0, 0, 0]
  ++ [0, 0, 0, 0]
  ++ [0, 0, 0, 0]
  ++ List.replicate 8 0
  ++ [24, 0, 0, 0, 0, 0, 0, 0]

/-- Like `exC4data` but with a zero program-header table (`phnum = 0`, so
`load` copies nothing) and a single RELA record `{offset = 0, addend = 0}`:
after `load` + `relocate`, bytes 0..8 of the destination hold the
destination's own base address. -/
def exC2data : List Nat :=
  List.replicate 40 0
  ++ [64, 0, 0, 0, 0, 0, 0, 0]
  ++ List.replicate 10 0
  ++ [64, 0]
  ++ [1, 0]
  ++ [0, 0]
  ++ [0, 0, 0, 0]
  ++ [4, 0, 0, 0]
  ++ List.replicate 8 0
  ++ List.replicate 8 0
  ++ List.replicate 8 0
  ++ [24, 0, 0, 0, 0, 0, 0, 0]
  ++ [0, 0, 0, 0]
  ++ [0, 0, 0, 0]
  ++ List.replicate 8 0
  ++ [24, 0, 0, 0, 0, 0, 0, 0]

/-- Like `exC4data` but the RELA section header carries `size = 48` and
`entry_size = 48` (not the 24-byte record size), and its record region at
file offset 0 starts with `{offset = 0, info = 0, addend = 5}`. -/
def exC7data : List Nat :=
  List.replicate 16 0
  ++ [5, 0, 0, 0, 0, 0, 0, 0]
  ++ List.replicate 16 0
  ++ [64, 0, 0, 0, 0, 0, 0, 0]
  ++ List.replicate 10 0
  ++ [64, 0]
  ++ [1, 0]
  ++ [0, 0]
  ++ [0, 0, 0, 0]
  ++ [4, 0, 0, 0]
  ++ List.replicate 8 0
  ++ List.replicate 8 0
  ++ List.replicate 8 0
  ++ [48, 0, 0, 0, 0, 0, 0, 0]
  ++ [0, 0, 0, 0]
  ++ [0, 0, 0, 0]
  ++ List.replicate 8 0
  ++ [48, 0, 0, 0, 0, 0, 0, 0]

/-- A 58-byte header with `phoff = 64` at offset 32, `phentsize = 56` at
offset 54 and `phnum = 2` at offset 56, zeros elsewhere. -/
def ex9 : List Nat :=
  List.replicate 32 0
  ++ [64, 0, 0, 0, 0, 0, 0, 0]
  ++ List.replicate 14 0
  ++ [56, 0]
  ++ [2, 0]

/-- A 64-byte all-zero header: `phoff = 0`, `phentsize = 0`, `phnum = 0`. -/
def ex10 : List Nat := List.replicate 64 0

/-! ### Helper lemmas -/

/-- `readLE` succeeds exactly on in-range reads and returns the little-endian
value of the selected bytes. -/
theorem readLE_some (data : List Nat) :
    ∀ (n off : Nat), off + n ≤ data.length →
      readLE data off n = some (leDecode ((data.drop off).take n)) := by
  intro n
  induction n with
  | zero =>
    intro off h
    simp [readLE, leDecode]
  | succ k ih =>
    intro off h
    have hoff : off < data.length := by omega
    have h1 : data[off]? = some data[off] := List.getElem?_eq_getElem hoff
    have h2 : data.drop off = data[off] :: data.drop (off + 1) :=
      (List.getElem_cons_drop data off hoff).symm
    unfold readLE
    rw [h1, ih (off + 1) (by omega), h2, List.take_succ_cons]
    rfl

/-! ### The claims -/

/-- Claim C1 (code_bug evidence): on a source image with one PT_LOAD header
`{offset = 0, v_addr = 0, file_size = 4, memory_size = 8}` whose file bytes
0..8 are `[1,2,3,4,9,9,9,9]`, `load` into a zeroed 16-byte destination copies
all `memory_size = 8` bytes from the file — destination bytes 4..8 become
`[9,9,9,9]`, not the zero-filled BSS `[0,0,0,0]` the claim requires. -/
theorem c1_load_memsize_no_zero_fill :
    load exC1data (List.replicate 16 0) =
      .ok ([1, 2, 3, 4, 9, 9, 9, 9] ++ List.replicate 8 0) := by
  decide

/-- Claim C2 (counterexample): the destination contents after
`load` + `relocate` are not independent of the buffer instance — the code
writes the destination's own machine address (`base.as_ptr()`) plus the
addend, so two zeroed 8-byte buffers placed at addresses 0 and 4096 end up
with different bytes. -/
theorem c2_base_address_dependence :
    loadThenRelocate exC2data (List.replicate 8 0) 0 ≠
      loadThenRelocate exC2data (List.replicate 8 0) 4096 := by
  decide

/-- Claim C2 (amended): `load` followed by `relocate` is a deterministic
function of the source bytes, the destination length and the destination's
base address: two independently zeroed destination buffers of the same
length *at the same base address* yield identical outcomes. -/
theorem c2_deterministic_same_base (data : List Nat) (n addr : Nat)
    (b1 b2 : List Nat) (h1 : b1 = List.replicate n 0)
    (h2 : b2 = List.replicate n 0) :
    loadThenRelocate data b1 addr = loadThenRelocate data b2 addr := by
  rw [h1, h2]

/-- Witness for the amended Claim C2 at a concrete image, length and base
address. -/
theorem c2_deterministic_same_base_witness :
    loadThenRelocate exC2data (List.replicate 8 0) 0 =
      loadThenRelocate exC2data (List.replicate 8 0) 0 :=
  c2_deterministic_same_base exC2data 8 0 (List.replicate 8 0)
    (List.replicate 8 0) rfl rfl

/-- Claim C3 (code_bug evidence): a PT_LOAD header with
`v_addr + memory_size = 32` larger than the 8-byte destination does not make
`load` report a typed `OutOfBounds` error: after the single checked index
`&mut base[v_addr]`, the copy loop stores through an unchecked raw pointer
and runs past the destination buffer (undefined behaviour, `Res.oob`). -/
theorem c3_load_oob_write :
    load exC3data (List.replicate 8 0) = .oob := by
  decide

/-- Claim C4 (code_bug evidence): for the RELA entry
`{offset = 0x10, addend = 0x20}` and base address `0x100`, `relocate` does
write the little-endian value `0x120` at destination bytes `0x10..0x18` when
the destination has 24 bytes — but with a 16-byte destination
(`offset + 8 > length`) it performs an unchecked out-of-bounds raw store
instead of failing with `OutOfBounds`. -/
theorem c4_relocate_unchecked_write :
    relocate exC4data (List.replicate 24 0) 0x100 =
        .ok (List.replicate 16 0 ++ [0x20, 0x01, 0, 0, 0, 0, 0, 0]) ∧
      relocate exC4data (List.replicate 16 0) 0x100 = .oob := by
  decide

/-- Claim C5 (code_bug evidence): `load_segments_len` folds over *all*
program headers: with a PT_LOAD header `{v_addr = 0, memory_size = 8}` and a
non-LOAD header (type 2) `{v_addr = 100, memory_size = 8}` it returns
`108 = 100 + 8 - 0`, although the span over the LOAD headers alone is 8. -/
theorem c5_span_includes_nonload :
    load_segments_len exC5data = .ok 108 := by
  decide

/-- Claim C6 (code_bug evidence): on a 31-byte buffer `entrypoint` panics on
the out-of-range slice `data[24..32]` (modelled by `Res.panic`) instead of
returning a typed `TruncatedHeader` error. -/
theorem c6_entrypoint_truncated_panics :
    entrypoint (List.replicate 31 0) = .panic := by
  decide

/-- Claim C7 (code_bug evidence): a RELA section header whose
`entry_size = 48` is not the 24-byte relocation-record size is not rejected
with `UnsupportedRelocationType`: `relocate` silently computes
`count = size / entry_size = 1`, decodes the record at the 24-byte stride and
applies it, writing `little_endian(0 + 5)` to destination bytes 0..8. -/
theorem c7_entry_size_not_validated :
    relocate exC7data (List.replicate 8 0) 0 = .ok [5, 0, 0, 0, 0, 0, 0, 0] := by
  decide

/-- Claim C8: `is_valid` returns true exactly when the buffer holds at least
4 bytes and its 4-byte prefix is the ELF magic `0x7F 'E' 'L' 'F'`, whatever
the remaining bytes are. -/
theorem c8_is_valid_iff (data : List Nat) :
    is_valid data = true ↔ 4 ≤ data.length ∧ data.take 4 = elfMagic := by
  match data with
  | [] => simp [is_valid, elfMagic]
  | [a] => simp [is_valid, elfMagic]
  | [a, b] => simp [is_valid, elfMagic]
  | [a, b, c] => simp [is_valid, elfMagic]
  | a :: b :: c :: d :: t =>
    have hlen : ¬ (a :: b :: c :: d :: t).length < 4 := by
      simp only [List.length_cons]
      omega
    have hval : is_valid (a :: b :: c :: d :: t) =
        ((0x7F == a) && ((0x45 == b) && ((0x4C == c) && ((0x46 == d) && true)))) := by
      rw [is_valid, if_neg hlen]
      rfl
    have htake : (a :: b :: c :: d :: t).take 4 = [a, b, c, d] := rfl
    rw [hval, htake]
    simp only [List.length_cons, elfMagic, List.cons.injEq, and_true,
      Bool.and_true, Bool.and_eq_true, beq_iff_eq]
    constructor
    · rintro ⟨e1, e2, e3, e4⟩
      exact ⟨by omega, e1.symm, e2.symm, e3.symm, e4.symm⟩
    · rintro ⟨_, e1, e2, e3, e4⟩
      exact ⟨e1.symm, e2.symm, e3.symm, e4.symm⟩

/-- Claim C9: whenever the buffer reaches offset 58,
`program_header_table` returns the 8-byte little-endian value at offset 32,
the 2-byte value at offset 54 and the 2-byte value at offset 56. -/
theorem c9_program_header_table_decodes (data : List Nat)
    (h : 58 ≤ data.length) :
    program_header_table data =
      .ok (leDecode ((data.drop 32).take 8), leDecode ((data.drop 54).take 2),
        leDecode ((data.drop 56).take 2)) := by
  unfold program_header_table
  rw [readLE_some data 8 32 (by omega), readLE_some data 2 54 (by omega),
    readLE_some data 2 56 (by omega)]

/-- Witness for Claim C9: a 58-byte buffer encoding `phoff = 64`,
`phentsize = 56`, `phnum = 2` at offsets 32/54/56 decodes to
`(64, 56, 2)`. -/
theorem c9_program_header_table_witness :
    58 ≤ ex9.length ∧ program_header_table ex9 = .ok (64, 56, 2) :=
  ⟨by decide, by rw [c9_program_header_table_decodes ex9 (by decide)]; decide⟩

/-- Claim C10: on any input whose program-header table decodes with a count
of 0 (and an in-range table offset, so that `program_headers` itself
succeeds with the empty list), the final `end - start` subtraction of
`load_segments_len` runs with `start = usize::MAX` and `end = 0` and
underflows — the embedding's panic branch, never a returned value. -/
theorem c10_empty_phnum_underflow (data : List Nat) (ptr size : Nat)
    (h : program_header_table data = .ok (ptr, size, 0))
    (hp : ptr ≤ data.length) :
    load_segments_len data = .panic := by
  have h0 : program_headers data = .ok [] := by
    unfold program_headers
    rw [h]
    simp [Res.bind, hp, decodePHs]
  unfold load_segments_len
  rw [h0]
  rfl

/-- Witness for Claim C10: the all-zero 64-byte header has `phnum = 0` and
`load_segments_len` ends in the underflow panic. -/
theorem c10_empty_phnum_underflow_witness :
    program_header_table ex10 = .ok (0, 0, 0) ∧ 0 ≤ ex10.length ∧
      load_segments_len ex10 = .panic :=
  ⟨by decide, by decide, c10_empty_phnum_underflow ex10 0 0 (by decide) (by decide)⟩
